import Mathlib

/-!
Verification of the vesting-schedule compiler in
`token-vesting-cli/src/commands.ts` (`parseVestingSchedule` and its inner
helper `parse_duration`), together with a model of the schedule builder
from the `token-vesting-api` package used by the orchestrator.

The duration parser is embedded by implementing, over `List Char`, the
exact behaviour of the JavaScript regular expression

  P(?=\d+[YMWD])(\d+Y)?(\d+M)?(\d+W)?(\d+D)?(T(?=\d+[HMS])(\d+H)?(\d+M)?(\d+S)?)?

under `String.prototype.match` (unanchored: first matching position wins;
each optional group is greedy, and since every group is a digit run
followed by a distinct unit letter the match is deterministic).
`BN` (bn.js arbitrary-precision integers) is modelled by `Nat` for the
accumulated value; `parse_duration` only ever adds non-negative
contributions to `BN(0)`. The `addn` calls the loop makes are additionally
modelled with their bn.js precondition: `iaddn` asserts its argument is
below `0x4000000` (2^26) and throws `Error("Assertion failed")` otherwise,
so `parse_duration_run` captures which inputs make the real program raise.
-/

/-- Split a character list into its maximal leading run of decimal digits
and the rest, as the greedy `\d+` does. -/
def digitSpan : List Char → List Char × List Char
  | [] => ([], [])
  | c :: cs =>
      if c.isDigit then
        let p := digitSpan cs
        (c :: p.1, p.2)
      else ([], c :: cs)

/-- Match the regex fragment `\d+X` (for a unit letter `X`) at the head of
the input; on success return the matched text and the remaining input.
Because the unit letter is not a digit, the greedy digit run cannot
backtrack: the fragment matches exactly when the maximal digit run is
non-empty and is followed by the letter. -/
def matchNumUnit (letter : Char) (s : List Char) : Option (List Char × List Char) :=
  let p := digitSpan s
  match p.1 with
  | [] => none
  | _ :: _ =>
      match p.2 with
      | c :: rest => if c = letter then some (p.1 ++ [c], rest) else none
      | [] => none

/-- The lookahead `(?=\d+[L1..Ln])`: a non-empty digit run followed by one
of the given unit letters. -/
def lookaheadNumIn (letters : List Char) (s : List Char) : Bool :=
  let p := digitSpan s
  match p.1 with
  | [] => false
  | _ :: _ =>
      match p.2 with
      | c :: _ => letters.contains c
      | [] => false

/-- Run one optional group `(\d+X)?`: either consume a `\d+X` fragment or
leave the input unchanged with no capture. -/
def tryUnit (letter : Char) (s : List Char) : Option (List Char) × List Char :=
  match matchNumUnit letter s with
  | some (t, r) => (some t, r)
  | none => (none, s)

/-- The capture groups of one successful match of the duration regex, in
the order they appear in the JavaScript match array (index 1 to 8): the
four date groups, the whole `T...` group, and the three time groups. -/
structure DurationMatch where
  gY : Option (List Char)
  gMo : Option (List Char)
  gW : Option (List Char)
  gD : Option (List Char)
  gT : Option (List Char)
  gH : Option (List Char)
  gMi : Option (List Char)
  gS : Option (List Char)
deriving DecidableEq

/-- Attempt to match the duration regex at the current position. The
leading `P` and its lookahead are mandatory; everything after is optional,
so once the lookahead succeeds the match as a whole succeeds. The `T`
block participates only when a literal `T` with a satisfied `(?=\d+[HMS])`
lookahead is present. -/
def matchDurationAt (s : List Char) : Option DurationMatch :=
  match s with
  | [] => none
  | c :: rest =>
      if c = 'P' then
        if lookaheadNumIn ['Y', 'M', 'W', 'D'] rest then
          let r1 := tryUnit 'Y' rest
          let r2 := tryUnit 'M' r1.2
          let r3 := tryUnit 'W' r2.2
          let r4 := tryUnit 'D' r3.2
          match r4.2 with
          | 'T' :: r5 =>
              if lookaheadNumIn ['H', 'M', 'S'] r5 then
                let r6 := tryUnit 'H' r5
                let r7 := tryUnit 'M' r6.2
                let r8 := tryUnit 'S' r7.2
                some ⟨r1.1, r2.1, r3.1, r4.1,
                  some ('T' :: (r6.1.getD [] ++ r7.1.getD [] ++ r8.1.getD [])),
                  r6.1, r7.1, r8.1⟩
              else
                some ⟨r1.1, r2.1, r3.1, r4.1, none, none, none, none⟩
          | _ => some ⟨r1.1, r2.1, r3.1, r4.1, none, none, none, none⟩
        else none
      else none

/-- `String.prototype.match` with a non-global regex: scan positions left
to right and return the groups of the first successful match. -/
def findDurationMatch : List Char → Option DurationMatch
  | [] => none
  | c :: rest =>
      match matchDurationAt (c :: rest) with
      | some m => some m
      | none => findDurationMatch rest

/-- Decimal value of a digit string, as `parseInt` computes it on the
all-digit prefix of a group. -/
def digitsToNat (l : List Char) : Nat :=
  l.foldl (fun acc c => acc * 10 + (c.toNat - '0'.toNat)) 0

/-- Contribution of one capture group: `parseInt` of the group text minus
its trailing unit letter, times the per-unit second count. An absent group
contributes nothing (the loop `continue`s on `undefined`). -/
def unitValue (g : Option (List Char)) (mult : Nat) : Nat :=
  match g with
  | none => 0
  | some t => digitsToNat t.dropLast * mult

/-- Total seconds accumulated by the `for (const match of matches)` loop in
`parse_duration`. The full match (starts with `P`) is skipped; the `T`
group (starts with `T`) only flips `hadTimeSpecifier`, and since it
precedes the `H`/`M`/`S` groups in the match array, the first `M` group is
always months and the second always minutes. The unit multipliers are
exactly the ones in the source, including the year case
`n*60*60*24*30*365`. -/
def durationOfMatch (m : DurationMatch) : Nat :=
  unitValue m.gY (60 * 60 * 24 * 30 * 365) +
  unitValue m.gMo (60 * 60 * 24 * 30) +
  unitValue m.gW (60 * 60 * 24 * 7) +
  unitValue m.gD (60 * 60 * 24) +
  unitValue m.gH (60 * 60) +
  unitValue m.gMi 60 +
  unitValue m.gS 1

/-- `parse_duration` from `commands.ts`: result starts at `BN(0)` and is
returned unchanged when the regex finds no match anywhere in the string. -/
def parse_duration (s : String) : Nat :=
  match findDurationMatch s.data with
  | none => 0
  | some m => durationOfMatch m

/-!
The yup validation schema of `parseVestingSchedule`. Raw JSON-ish input is
modelled with `Option` for an absent field and a nested `Option` for a
field that may also be the JSON value `null` (the schemas using
`.nullable()`). JSON numbers are modelled exactly as rationals, so that
the `.integer()` tests are meaningful; dates are modelled as their epoch
value in milliseconds (`Date.prototype.getTime`). Validation aborts on the
first failing field (yup's default `abortEarly`), and an error carries the
name of the offending field.
-/

/-- A raw schedule item as received by the schema: every field may be
absent; `part` and `period` may additionally be `null`. -/
structure RawItem where
  type : Option String
  part : Option (Option Rat)
  count : Option Rat
  time : Option Int
  offset : Option String
  period : Option (Option String)
deriving DecidableEq

/-- A raw top-level plan: `name`, `amount`, `schedule`. -/
structure RawPlan where
  name : Option String
  amount : Option Rat
  schedule : Option (List RawItem)
deriving DecidableEq

/-- The three accepted values of the `type` field. -/
inductive ItemType where
  | fixed
  | onetime
  | offseted
deriving DecidableEq

/-- A schedule item after successful validation and casting: `part` is
`none` exactly when the raw field was `null` (the remainder marker),
`count` has its default `1` applied, and `period` collapses an absent and
a `null` value (the compiler treats both through `period ?? "P"` and the
non-null assertion). -/
structure ValidatedItem where
  type : ItemType
  part : Option Nat
  count : Nat
  time : Option Int
  offset : Option String
  period : Option String
deriving DecidableEq

/-- A plan after successful validation and casting. -/
structure ValidatedPlan where
  name : String
  amount : Nat
  schedule : List ValidatedItem
deriving DecidableEq

/-- `yup.string().oneOf(["offseted", "fixed", "onetime"]).required()`. -/
def checkType (v : Option String) : Except String ItemType :=
  match v with
  | some "fixed" => .ok .fixed
  | some "onetime" => .ok .onetime
  | some "offseted" => .ok .offseted
  | _ => .error "type"

/-- `yup.number().nullable().defined().positive().min(1).integer()`: an
absent value fails the `defined` test, `null` passes untouched, and a
number must be positive, at least 1 and integral. -/
def checkPart (v : Option (Option Rat)) : Except String (Option Nat) :=
  match v with
  | none => .error "part"
  | some none => .ok none
  | some (some q) =>
      if 0 < q ∧ 1 ≤ q ∧ q.den = 1 then .ok (some q.num.toNat) else .error "part"

/-- `yup.number().positive().integer().min(1).default(1)`: an absent value
casts to the default `1`. -/
def checkCount (v : Option Rat) : Except String Nat :=
  match v with
  | none => .ok 1
  | some q =>
      if 0 < q ∧ 1 ≤ q ∧ q.den = 1 then .ok q.num.toNat else .error "count"

/-- `yup.date().optional()`: both an absent and a present date pass. -/
def checkTime (v : Option Int) : Except String (Option Int) :=
  .ok v

/-- `yup.string().matches(IS08601_DURATION_REGEX)`: an absent value is
skipped; a present string must contain a match of the (unanchored)
duration regex somewhere. -/
def checkOffset (v : Option String) : Except String (Option String) :=
  match v with
  | none => .ok none
  | some s =>
      if (findDurationMatch s.data).isSome then .ok (some s) else .error "offset"

/-- `yup.string().nullable().matches(IS08601_DURATION_REGEX)`: absent and
`null` values are skipped; a present string must contain a regex match. -/
def checkPeriod (v : Option (Option String)) : Except String (Option String) :=
  match v with
  | none => .ok none
  | some none => .ok none
  | some (some s) =>
      if (findDurationMatch s.data).isSome then .ok (some s) else .error "period"

/-- Validate one raw schedule item against the inner yup object schema,
field by field in the order of the schema's shape. -/
def validateItem (r : RawItem) : Except String ValidatedItem :=
  match checkType r.type with
  | .error e => .error e
  | .ok ty =>
      match checkPart r.part with
      | .error e => .error e
      | .ok part =>
          match checkCount r.count with
          | .error e => .error e
          | .ok count =>
              match checkTime r.time with
              | .error e => .error e
              | .ok time =>
                  match checkOffset r.offset with
                  | .error e => .error e
                  | .ok off =>
                      match checkPeriod r.period with
                      | .error e => .error e
                      | .ok per => .ok ⟨ty, part, count, time, off, per⟩

/-- Validate every item of the schedule array, aborting on the first
failure. -/
def validateItems : List RawItem → Except String (List ValidatedItem)
  | [] => .ok []
  | r :: rest =>
      match validateItem r with
      | .error e => .error e
      | .ok v =>
          match validateItems rest with
          | .error e => .error e
          | .ok vs => .ok (v :: vs)

/-- The top-level schema: `name` a required (non-empty) string, `amount` a
required positive integer, `schedule` a required array of at least one
item, each validating against the item schema. -/
def validatePlan (p : RawPlan) : Except String ValidatedPlan :=
  match p.name with
  | none => .error "name"
  | some n =>
      if n = "" then .error "name"
      else
        match p.amount with
        | none => .error "amount"
        | some q =>
            if 0 < q ∧ q.den = 1 then
              match p.schedule with
              | none => .error "schedule"
              | some items =>
                  if items.length < 1 then .error "schedule"
                  else
                    match validateItems items with
                    | .error e => .error e
                    | .ok vs => .ok ⟨n, q.num.toNat, vs⟩
            else .error "amount"

/-!
The schedule builder. The orchestrator drives it through
`VestingSchedule.with_tokens`, `builder.add(new LinearVesting(start,
period, count), tokens)`, `builder.cliff(time, tokens)`,
`builder.offseted_by(offset, LinearVesting.without_start(period, count),
tokens)` and `builder.build()`. The builder itself lives in the external
`token-vesting-api` package, whose code is not part of this repository's
sources; it is modelled here from the specification's description of the
Schedule Builder (token-share algorithm with floor allocation for explicit
parts and the remainder item absorbing the leftover, time resolution
anchoring an offseted item to the previous event's final release time,
and the failure modes given for `build()`).
-/

/-- A linear vesting descriptor as constructed by `new LinearVesting(start,
period, count)`: start time in epoch seconds, tranche spacing in seconds,
tranche count. -/
structure LinearVesting where
  start_time : Int
  period : Nat
  count : Nat
deriving DecidableEq

/-- `LinearVesting.without_start(period, count)`: a descriptor still
missing its anchor, to be placed by `offseted_by`. -/
structure LinearVestingNoStart where
  period : Nat
  count : Nat
deriving DecidableEq

/-- One release event of the finished schedule: a linear run of tranches
or a one-time lump. -/
inductive ReleaseEventKind where
  | linear (start_time : Int) (period : Nat) (count : Nat)
  | lump (time : Int)
deriving DecidableEq

/-- Modelled from the spec: a `ReleaseEvent` carries its kind and the
exact integer token amount the whole event releases. -/
structure ReleaseEvent where
  kind : ReleaseEventKind
  token_amount : Nat
deriving DecidableEq

/-- The finished schedule, with the three fields the orchestration code
reads (`token_count`, `vesting_count`, `vestings`). -/
structure VestingSchedule where
  token_count : Nat
  vesting_count : Nat
  vestings : List ReleaseEvent
deriving DecidableEq

/-- The final release instant of an event: the last tranche of a linear
run, or the lump's time. -/
def finalTime (k : ReleaseEventKind) : Int :=
  match k with
  | .linear start per cnt => start + (per : Int) * ((cnt : Int) - 1)
  | .lump t => t

/-- Modelled from the spec: the builder's accumulator state — the total
token count, the items added so far (each an event shape paired with its
optional explicit `part` weight), and the final release time of the last
added event. The spec leaves the anchor of an `offseted` item with no
previous event undefined (it makes the orchestrator responsible for
rejecting that shape); the model anchors such an item at time `0`. -/
structure Builder where
  total : Nat
  items : List (ReleaseEventKind × Option Nat)
  lastEnd : Int
deriving DecidableEq

/-- `VestingSchedule.with_tokens(total)`. -/
def Builder.with_tokens (total : Nat) : Builder :=
  ⟨total, [], 0⟩

/-- `builder.add(vesting, tokens)`: append a linear event at its absolute
anchor. -/
def Builder.add (b : Builder) (v : LinearVesting) (part : Option Nat) : Builder :=
  let k := ReleaseEventKind.linear v.start_time v.period v.count
  ⟨b.total, b.items ++ [(k, part)], finalTime k⟩

/-- `builder.cliff(time, tokens)`: append a one-time lump event. -/
def Builder.cliff (b : Builder) (time : Int) (part : Option Nat) : Builder :=
  let k := ReleaseEventKind.lump time
  ⟨b.total, b.items ++ [(k, part)], finalTime k⟩

/-- `builder.offseted_by(offset, vesting, tokens)`: anchor the start-less
descriptor at the previous event's final time plus the offset. -/
def Builder.offseted_by (b : Builder) (off : Nat) (v : LinearVestingNoStart)
    (part : Option Nat) : Builder :=
  let k := ReleaseEventKind.linear (b.lastEnd + (off : Int)) v.period v.count
  ⟨b.total, b.items ++ [(k, part)], finalTime k⟩

/-- The error taxonomy of the compiler. `validationError` carries the
field name reported by the schema. The builder produces the three
allocation-time failures of the spec. `firstItemOffseted` and
`durationFormat` are listed in the specification's taxonomy and are
included here so that their absence from every code path can be stated;
no definition below ever constructs them. -/
inductive CompileError where
  | validationError (field : String)
  | overAllocation
  | emptySchedule
  | ambiguousRemainder
  | firstItemOffseted
  | durationFormat
deriving DecidableEq

/-- The sum `S` of the explicit `part` weights of the added items. -/
def explicitPartsSum (parts : List (Option Nat)) : Nat :=
  (parts.filterMap id).sum

/-- The sum of the allocations of the items carrying an explicit part,
each `floor(total * part / S)`. -/
def explicitAllocSum (total : Nat) (parts : List (Option Nat)) : Nat :=
  ((parts.filterMap id).map (fun p => total * p / explicitPartsSum parts)).sum

/-- Modelled from the spec: the token allocation of each item, in order.
An item with explicit weight `p` receives `floor(total * p / S)`, and a
remainder item (no explicit part) receives the total minus the sum of
all explicit allocations. -/
def allocationsOf (total : Nat) (parts : List (Option Nat)) : List Nat :=
  parts.map (fun op =>
    match op with
    | some p => total * p / explicitPartsSum parts
    | none => total - explicitAllocSum total parts)

/-- Modelled from the spec: `builder.build()` — fail on an empty item
list, on more than one remainder item, or on explicit allocations
exceeding the total; otherwise pair every item with its allocation. -/
def Builder.build (b : Builder) : Except CompileError VestingSchedule :=
  if b.items.length = 0 then .error .emptySchedule
  else if 2 ≤ (b.items.map Prod.snd).countP (fun op => op.isNone) then
    .error .ambiguousRemainder
  else if b.total < explicitAllocSum b.total (b.items.map Prod.snd) then
    .error .overAllocation
  else
    .ok ⟨b.total, b.items.length,
      (b.items.zip (allocationsOf b.total (b.items.map Prod.snd))).map
        (fun x => ⟨x.1.1, x.2⟩)⟩

/-- Outcome of a run of `parseVestingSchedule`: a finished schedule, a
typed failure, or an untyped runtime `TypeError` raised by a non-null
assertion (`!`) on a field that validation let through as absent — the
crash carries that field's name. -/
inductive CompileOutcome where
  | ok (vs : VestingSchedule)
  | err (e : CompileError)
  | crash (field : String)
deriving DecidableEq

/-- One iteration of the `for (const schedule_item of ...)` loop. For a
`fixed` item the code evaluates `time!.getTime()` and then
`parse_duration(period!)`, so an absent `time` or an absent/`null`
`period` is an untyped crash, not a validation failure. `onetime` needs
only `time`. `offseted` evaluates `parse_duration(offset!)` (crash when
absent) and replaces an absent/`null` period by `"P"`, the empty
duration. Times are converted by `Math.floor(time.getTime()/1000)`. -/
def compileStep (b : Builder) (it : ValidatedItem) : Except String Builder :=
  match it.type with
  | .fixed =>
      match it.time with
      | none => .error "time"
      | some t =>
          match it.period with
          | none => .error "period"
          | some per =>
              .ok (b.add ⟨t.fdiv 1000, parse_duration per, it.count⟩ it.part)
  | .onetime =>
      match it.time with
      | none => .error "time"
      | some t => .ok (b.cliff (t.fdiv 1000) it.part)
  | .offseted =>
      match it.offset with
      | none => .error "offset"
      | some off =>
          let per := it.period.getD "P"
          .ok (b.offseted_by (parse_duration off)
            ⟨parse_duration per, it.count⟩ it.part)

/-- Run the loop over all validated items. -/
def compileItems : Builder → List ValidatedItem → Except String Builder
  | b, [] => .ok b
  | b, it :: rest =>
      match compileStep b it with
      | .error f => .error f
      | .ok b2 => compileItems b2 rest

/-- `parseVestingSchedule`: validate the raw plan against the schema, feed
every item into the builder, and finalize. -/
def parseVestingSchedule (p : RawPlan) : CompileOutcome :=
  match validatePlan p with
  | .error f => .err (.validationError f)
  | .ok vp =>
      match compileItems (Builder.with_tokens vp.amount) vp.schedule with
      | .error f => .crash f
      | .ok b =>
          match b.build with
          | .error e => .err e
          | .ok vs => .ok vs

/-- Sum of the token amounts of a list of release events. -/
def sumTokens (l : List ReleaseEvent) : Nat :=
  (l.map (fun e => e.token_amount)).sum

/-- Fold the loop's successive `result.addn(n)` calls: bn.js `addn`
clones and calls `iaddn`, which asserts `num < 0x4000000` (2^26) and
throws `Error("Assertion failed")` when the argument is at least that
large, before adding. -/
def bnAddAll : Nat → List Nat → Except String Nat
  | acc, [] => .ok acc
  | acc, n :: rest =>
      if n < 67108864 then bnAddAll (acc + n) rest
      else .error "Assertion failed"

/-- The arguments of the successive `addn` calls one match produces: one
`n * multiplier` product per present capture group, in match-array order
(the full match and the `T` group are skipped and make no `addn` call). -/
def contributionsOf (m : DurationMatch) : List Nat :=
  (m.gY.toList.map (fun t => digitsToNat t.dropLast * (60 * 60 * 24 * 30 * 365))) ++
  (m.gMo.toList.map (fun t => digitsToNat t.dropLast * (60 * 60 * 24 * 30))) ++
  (m.gW.toList.map (fun t => digitsToNat t.dropLast * (60 * 60 * 24 * 7))) ++
  (m.gD.toList.map (fun t => digitsToNat t.dropLast * (60 * 60 * 24))) ++
  (m.gH.toList.map (fun t => digitsToNat t.dropLast * (60 * 60))) ++
  (m.gMi.toList.map (fun t => digitsToNat t.dropLast * 60)) ++
  (m.gS.toList.map (fun t => digitsToNat t.dropLast * 1))

/-- `parse_duration` at the level of the real run: no match returns
`BN(0)` untouched (no `addn` call at all); a match feeds each component
product to `addn`, which raises bn.js's assertion as soon as one of them
reaches 2^26 seconds. -/
def parse_duration_run (s : String) : Except String Nat :=
  match findDurationMatch s.data with
  | none => .ok 0
  | some m => bnAddAll 0 (contributionsOf m)

deriving instance DecidableEq for Except

/-!
Supporting lemmas about the duration matcher.
-/

/-- A match of the duration regex can only start at a `P`, so a string
without any `P` has no match. -/
theorem findDurationMatch_no_p (l : List Char) (h : ∀ c ∈ l, c ≠ 'P') :
    findDurationMatch l = none := by
  induction l with
  | nil => rfl
  | cons c rest ih =>
      have hc : c ≠ 'P' := h c (List.mem_cons_self c rest)
      have hrest : ∀ x ∈ rest, x ≠ 'P' := fun x hx => h x (List.mem_cons_of_mem c hx)
      simp [findDurationMatch, matchDurationAt, hc, ih hrest]

/-- Scanning skips any prefix free of `P`: the first match in
`pre ++ l` is the first match in `l` when `pre` contains no `P`. -/
theorem findDurationMatch_append (pre l : List Char) (h : ∀ c ∈ pre, c ≠ 'P') :
    findDurationMatch (pre ++ l) = findDurationMatch l := by
  induction pre with
  | nil => rfl
  | cons c rest ih =>
      have hc : c ≠ 'P' := h c (List.mem_cons_self c rest)
      have hrest : ∀ x ∈ rest, x ≠ 'P' := fun x hx => h x (List.mem_cons_of_mem c hx)
      show findDurationMatch (c :: (rest ++ l)) = findDurationMatch l
      rw [show findDurationMatch (c :: (rest ++ l)) =
        match matchDurationAt (c :: (rest ++ l)) with
        | some m => some m
        | none => findDurationMatch (rest ++ l) from rfl]
      simp [matchDurationAt, hc, ih hrest]

/-- C2: the claim says `parse_duration` treats one year as 365 days
(31536000 seconds). In the source the year case adds
`n*60*60*24*30*365` seconds — the month factor 30 is left in the
product — so `"P1Y"` evaluates to 946080000 seconds (365 thirty-day
months), not 31536000; the `"P1DT2H"` example does evaluate to 93600. -/
theorem C2_year_multiplier_bug :
    parse_duration "P1Y" = 946080000 ∧
    (946080000 : Nat) ≠ 31536000 ∧
    parse_duration "P1DT2H" = 93600 := by
  refine ⟨by decide, by decide, by decide⟩

/-- C5 counterexample: the claim asserts `parse_duration "PT1M" = 60`,
but the regex demands at least one date component right after `P`
(lookahead `(?=\d+[YMWD])`), so `"PT1M"` has no match anywhere and the
function returns 0. -/
theorem C5_counterexample :
    parse_duration "PT1M" = 0 ∧ parse_duration "PT1M" ≠ 60 := by
  refine ⟨by decide, by decide⟩

/-- C5 amended: an `M` token before the `T` separator counts as months
(30 days each) and one after `T` counts as minutes, but only within
strings the regex accepts, which require at least one date component
after `P`; `"P1M"` gives 2592000 and `"P1DT1M"` gives 86400 + 60, while
the time-only `"PT1M"` finds no match and gives 0 instead of 60. -/
theorem C5_m_disambiguation_amended :
    parse_duration "P1M" = 2592000 ∧
    parse_duration "P2M" = 5184000 ∧
    parse_duration "P1DT1M" = 86460 ∧
    parse_duration "P1DT2M" = 86520 ∧
    parse_duration "PT1M" = 0 := by
  refine ⟨by decide, by decide, by decide, by decide, by decide⟩

/-- C6 counterexample: the claim says a non-matching duration string
fails with a `DurationFormatError`; on `"hello"` the regex finds no
match and `parse_duration` silently returns the value 0. -/
theorem C6_counterexample :
    findDurationMatch "hello".data = none ∧ parse_duration "hello" = 0 := by
  refine ⟨by decide, by decide⟩

/-- C6 amended: `parse_duration` itself never fails — a string in which
the regex finds no match yields 0 — while a non-matching string used in
the `offset` or `period` field is rejected earlier, by the schema's
pattern test, as a validation failure naming the field (never a
`DurationFormatError`, which exists in no code path). -/
theorem C6_no_match_amended (s : String)
    (h : findDurationMatch s.data = none) :
    parse_duration s = 0 ∧
    checkOffset (some s) = .error "offset" ∧
    checkPeriod (some (some s)) = .error "period" := by
  refine ⟨?_, ?_, ?_⟩
  · unfold parse_duration
    rw [h]
  · simp [checkOffset, h]
  · simp [checkPeriod, h]

/-- C6 witness: the amended statement applied at the concrete
non-matching string `"xyz"`. -/
theorem C6_no_match_amended_witness :
    parse_duration "xyz" = 0 ∧
    checkOffset (some "xyz") = .error "offset" ∧
    checkPeriod (some (some "xyz")) = .error "period" :=
  C6_no_match_amended "xyz" (by decide)

/-- C10: the regex is unanchored, so a string that merely contains a
well-formed duration — such as `"xP1Dy"` — passes the schema's pattern
test for `offset`/`period` and `parse_duration` evaluates the first
embedded match, ignoring the surrounding text: scanning skips any
`P`-free prefix, trailing text is never consumed, and concretely
`"xP1Dy"` validates as an `offset` and parses to the same 86400 seconds
as `"P1D"`. -/
theorem C10_unanchored_regex :
    checkOffset (some "xP1Dy") = .ok (some "xP1Dy") ∧
    checkPeriod (some (some "xP1Dy")) = .ok (some "xP1Dy") ∧
    parse_duration "xP1Dy" = 86400 ∧
    parse_duration "xP1Dy" = parse_duration "P1D" ∧
    (∀ (pre l : List Char), (∀ c ∈ pre, c ≠ 'P') →
      findDurationMatch (pre ++ l) = findDurationMatch l) := by
  refine ⟨by decide, by decide, by decide, by decide, ?_⟩
  exact findDurationMatch_append

/-- C10 witness: the prefix-skipping conjunct applied at the concrete
prefix `"x"` and suffix `"P1D"`. -/
theorem C10_unanchored_regex_witness :
    findDurationMatch (['x'] ++ "P1D".data) = findDurationMatch "P1D".data :=
  C10_unanchored_regex.2.2.2.2 ['x'] "P1D".data (by decide)

/-- C8: the compiler is a pure function of the plan value — the
embedding reads no ambient state, so equal inputs give identical
schedules. -/
theorem C8_deterministic (p q : RawPlan) (h : p = q) :
    parseVestingSchedule p = parseVestingSchedule q := by
  rw [h]

/-- C8 witness: determinism applied at a concrete plan compiled twice. -/
theorem C8_deterministic_witness :
    parseVestingSchedule
      ⟨some "d", some 7, some [⟨some "onetime", some none, none, some 0, none, none⟩]⟩ =
    parseVestingSchedule
      ⟨some "d", some 7, some [⟨some "onetime", some none, none, some 0, none, none⟩]⟩ :=
  C8_deterministic _ _ rfl

/-- C3: the claim says a `fixed` item missing `time` or `period` is a
typed validation failure; in fact the schema marks both fields optional,
so validation passes and the loop's non-null assertions
(`time!.getTime()`, `parse_duration(period!)`) raise an untyped runtime
`TypeError`. Evaluated at the failing inputs: a `fixed` item without
`time` crashes on `time`, and one with a `time` but no `period` crashes
on `period`, after item validation succeeded in both cases. -/
theorem C3_fixed_missing_field_crashes :
    validateItem ⟨some "fixed", some none, none, none, none, none⟩ =
      .ok ⟨.fixed, none, 1, none, none, none⟩ ∧
    parseVestingSchedule
      ⟨some "x", some 100, some [⟨some "fixed", some none, none, none, none, none⟩]⟩ =
      .crash "time" ∧
    validateItem ⟨some "fixed", some none, none, some 0, none, none⟩ =
      .ok ⟨.fixed, none, 1, some 0, none, none⟩ ∧
    parseVestingSchedule
      ⟨some "x", some 100, some [⟨some "fixed", some none, none, some 0, none, none⟩]⟩ =
      .crash "period" := by
  refine ⟨by decide, by decide, by decide, by decide⟩

/-- C7 counterexample: the claim says an item that omits `part`
entirely passes validation; the schema's `part` chain ends in
`.defined()`, so an absent `part` is a validation failure naming the
field — a remainder item must spell `part: null` explicitly. -/
theorem C7_counterexample :
    parseVestingSchedule
      ⟨some "x", some 100, some [⟨some "onetime", none, none, some 0, none, none⟩]⟩ =
      .err (.validationError "part") := by
  decide

/-- C7 amended: `part` must be present, possibly as the explicit value
`null`: a `null` part passes validation and marks the remainder item
(it receives the total minus the explicit allocations — here the whole
amount), an absent `part` fails validation, and a present non-null
`part` validates exactly when it is a positive integer at least 1. -/
theorem C7_part_null_remainder_amended :
    validateItem ⟨some "onetime", some none, none, some 0, none, none⟩ =
      .ok ⟨.onetime, none, 1, some 0, none, none⟩ ∧
    parseVestingSchedule
      ⟨some "p", some 1000, some [⟨some "onetime", some none, none, some 0, none, none⟩]⟩ =
      .ok ⟨1000, 1, [⟨.lump 0, 1000⟩]⟩ ∧
    validateItem ⟨some "onetime", none, none, some 0, none, none⟩ = .error "part" ∧
    (∀ q : Rat,
      (∃ v, validateItem ⟨some "onetime", some (some q), none, some 0, none, none⟩ =
          .ok v ∧ v.part = some q.num.toNat) ↔
      (0 < q ∧ 1 ≤ q ∧ q.den = 1)) := by
  refine ⟨by decide, by decide, by decide, ?_⟩
  intro q
  constructor
  · rintro ⟨v, hv, hp⟩
    by_cases hq : 0 < q ∧ 1 ≤ q ∧ q.den = 1
    · exact hq
    · simp [validateItem, checkType, checkPart, checkCount, checkTime,
        checkOffset, checkPeriod, hq] at hv
  · intro hq
    refine ⟨⟨.onetime, some q.num.toNat, 1, some 0, none, none⟩, ?_, rfl⟩
    simp [validateItem, checkType, checkPart, checkCount, checkTime,
      checkOffset, checkPeriod, hq]

/-- The builder's `build` can only fail with its three allocation-time
errors. -/
theorem build_error_shape (b : Builder) (e : CompileError)
    (h : b.build = .error e) :
    e = .emptySchedule ∨ e = .ambiguousRemainder ∨ e = .overAllocation := by
  unfold Builder.build at h
  split at h
  · exact Or.inl (Except.error.inj h).symm
  · split at h
    · exact Or.inr (Or.inl (Except.error.inj h).symm)
    · split at h
      · exact Or.inr (Or.inr (Except.error.inj h).symm)
      · exact absurd h (by simp)

/-- C4 counterexample: a valid plan whose first (and only) item is
`offseted` is not rejected with `FirstItemOffsetedError` — the
orchestrator contains no such check and hands the item straight to the
builder. -/
theorem C4_counterexample :
    parseVestingSchedule
      ⟨some "x", some 100, some [⟨some "offseted", some none, none, none, some "P1D", none⟩]⟩ ≠
      .err .firstItemOffseted := by
  decide

/-- C4 amended: no run of the compiler ever produces
`FirstItemOffsetedError`: the orchestrator performs no first-item check
(a leading `offseted` item reaches the builder, which the model anchors
at time 0 plus the offset), and the only failures are schema validation
errors, the builder's three allocation-time errors, or an untyped crash
on a missing field. -/
theorem C4_no_first_item_offseted_check (p : RawPlan) :
    parseVestingSchedule p ≠ .err .firstItemOffseted := by
  intro hcontra
  unfold parseVestingSchedule at hcontra
  split at hcontra
  · exact absurd hcontra (by simp)
  · split at hcontra
    · exact absurd hcontra (by simp)
    · split at hcontra
      · rename_i heq
        have he := CompileOutcome.err.inj hcontra
        rcases build_error_shape _ _ heq with h | h | h <;> rw [h] at he <;>
          exact CompileError.noConfusion he
      · exact absurd hcontra (by simp)

/-- Division distributes sub-additively over a sum of numerators. -/
theorem nat_add_div_le (a b c : Nat) : a / c + b / c ≤ (a + b) / c := by
  rcases Nat.eq_zero_or_pos c with hc | hc
  · simp [hc]
  · rw [Nat.le_div_iff_mul_le hc, Nat.add_mul]
    exact Nat.add_le_add (Nat.div_mul_le_self a c) (Nat.div_mul_le_self b c)

/-- Summing the floored quotients never exceeds flooring the summed
numerator. -/
theorem sum_map_div_le (l : List Nat) (c : Nat) :
    (l.map (fun a => a / c)).sum ≤ l.sum / c := by
  induction l with
  | nil => simp
  | cons a l ih =>
      simp only [List.map_cons, List.sum_cons]
      exact le_trans (Nat.add_le_add_left ih (a / c)) (nat_add_div_le a l.sum c)

/-- Multiplying every element of a list scales its sum. -/
theorem sum_map_mul (t : Nat) (l : List Nat) :
    (l.map (fun p => t * p)).sum = t * l.sum := by
  induction l with
  | nil => simp
  | cons a l ih => simp [ih, Nat.mul_add]

/-- The explicit allocations can never exceed the total: each explicit
item receives `floor(total * part / S)` with `S` the sum of the explicit
parts, and the floors sum to at most `total * S / S ≤ total`. -/
theorem explicitAllocSum_le (total : Nat) (parts : List (Option Nat)) :
    explicitAllocSum total parts ≤ total := by
  unfold explicitAllocSum
  have h1 : (parts.filterMap id).map (fun p => total * p / explicitPartsSum parts) =
      ((parts.filterMap id).map (fun p => total * p)).map
        (fun a => a / explicitPartsSum parts) := by
    rw [List.map_map]
    rfl
  rw [h1]
  refine le_trans (sum_map_div_le _ _) ?_
  rw [sum_map_mul]
  unfold explicitPartsSum
  rcases Nat.eq_zero_or_pos (parts.filterMap id).sum with hS | hS
  · simp [hS]
  · rw [Nat.mul_div_cancel _ hS]

/-- Summing item allocations when no item is a remainder: only explicit
shares occur. -/
theorem sum_alloc_no_none (f : Nat → Nat) (R : Nat) :
    ∀ parts : List (Option Nat),
      parts.countP (fun op => op.isNone) = 0 →
      (parts.map (fun op =>
        match op with
        | some p => f p
        | none => R)).sum = ((parts.filterMap id).map f).sum := by
  intro parts
  induction parts with
  | nil => intro _; rfl
  | cons op rest ih =>
      intro h
      match op with
      | none => simp [List.countP_cons] at h
      | some a =>
          rw [List.countP_cons] at h
          simp only [Option.isNone_some, List.map_cons, List.sum_cons,
            List.filterMap_cons] at h ⊢
          simp only [id] at h ⊢
          rw [ih (by omega)]
          rfl

/-- Summing item allocations when exactly one item is a remainder: the
explicit shares plus the leftover `R`. -/
theorem sum_alloc_one_none (f : Nat → Nat) (R : Nat) :
    ∀ parts : List (Option Nat),
      parts.countP (fun op => op.isNone) = 1 →
      (parts.map (fun op =>
        match op with
        | some p => f p
        | none => R)).sum = ((parts.filterMap id).map f).sum + R := by
  intro parts
  induction parts with
  | nil => intro h; simp at h
  | cons op rest ih =>
      intro h
      match op with
      | none =>
          simp [List.countP_cons] at h
          have h0 : rest.countP (fun op => op.isNone) = 0 := by
            rw [List.countP_eq_zero]
            intro a ha hcon
            exact h a ha (Option.isNone_iff_eq_none.mp hcon)
          have hfm : List.filterMap id ((none : Option Nat) :: rest) =
              List.filterMap id rest := by simp
          simp only [List.map_cons, List.sum_cons]
          rw [hfm, sum_alloc_no_none f R rest h0]
          omega
      | some a =>
          simp [List.countP_cons] at h
          have hfm : List.filterMap id (some a :: rest) =
              a :: List.filterMap id rest := by simp
          simp only [List.map_cons, List.sum_cons]
          rw [hfm, List.map_cons, List.sum_cons, ih h]
          omega

/-- With exactly one remainder item the allocations sum to the exact
total: the remainder absorbs `total` minus the explicit allocations,
which never exceed the total. -/
theorem allocationsOf_sum (total : Nat) (parts : List (Option Nat))
    (h1 : parts.countP (fun op => op.isNone) = 1) :
    (allocationsOf total parts).sum = total := by
  unfold allocationsOf
  rw [sum_alloc_one_none _ _ _ h1]
  show explicitAllocSum total parts + (total - explicitAllocSum total parts) = total
  exact Nat.add_sub_cancel' (explicitAllocSum_le total parts)

/-- Zipping two equally long lists and keeping the second components
gives back the second list's sum. -/
theorem zip_snd_sum {α : Type} :
    ∀ (l1 : List α) (l2 : List Nat), l1.length = l2.length →
      ((l1.zip l2).map (fun x => x.2)).sum = l2.sum := by
  intro l1
  induction l1 with
  | nil =>
      intro l2 h
      cases l2 with
      | nil => rfl
      | cons b t => simp at h
  | cons a t ih =>
      intro l2 h
      cases l2 with
      | nil => simp at h
      | cons b t2 =>
          simp only [List.zip_cons_cons, List.map_cons, List.sum_cons]
          rw [ih t2 (by simpa using h)]

/-- Inversion of a successful `build`: the schedule carries the
builder's total, its event amounts are exactly the computed allocations,
and at most one added item lacked an explicit part. -/
theorem build_ok (b : Builder) (vs : VestingSchedule) (h : b.build = .ok vs) :
    vs.token_count = b.total ∧
    sumTokens vs.vestings = (allocationsOf b.total (b.items.map Prod.snd)).sum ∧
    (b.items.map Prod.snd).countP (fun op => op.isNone) ≤ 1 := by
  unfold Builder.build at h
  split at h
  · exact absurd h (by simp)
  · split at h
    · exact absurd h (by simp)
    · rename_i hcount
      split at h
      · exact absurd h (by simp)
      · have hv := Except.ok.inj h
        subst hv
        refine ⟨rfl, ?_, by omega⟩
        unfold sumTokens
        rw [List.map_map]
        have hcomp : ((fun e => e.token_amount) ∘
            (fun x : (ReleaseEventKind × Option Nat) × Nat =>
              (⟨x.1.1, x.2⟩ : ReleaseEvent))) =
            (fun x : (ReleaseEventKind × Option Nat) × Nat => x.2) := rfl
        rw [hcomp]
        apply zip_snd_sum
        simp [allocationsOf]

/-- Inversion of one loop iteration: on success it appends exactly one
item carrying the validated item's `part` and leaves the total alone. -/
theorem compileStep_ok (b : Builder) (it : ValidatedItem) (b2 : Builder)
    (h : compileStep b it = .ok b2) :
    b2.total = b.total ∧ ∃ k, b2.items = b.items ++ [(k, it.part)] := by
  unfold compileStep at h
  split at h
  · split at h
    · exact absurd h (by simp)
    · split at h
      · exact absurd h (by simp)
      · have hv := Except.ok.inj h
        subst hv
        exact ⟨rfl, _, rfl⟩
  · split at h
    · exact absurd h (by simp)
    · have hv := Except.ok.inj h
      subst hv
      exact ⟨rfl, _, rfl⟩
  · split at h
    · exact absurd h (by simp)
    · have hv := Except.ok.inj h
      subst hv
      exact ⟨rfl, _, rfl⟩

/-- Inversion of the whole loop: the final builder's part list is the
initial one extended by the items' parts, in order, and the total is
unchanged. -/
theorem compileItems_ok :
    ∀ (its : List ValidatedItem) (b b2 : Builder),
      compileItems b its = .ok b2 →
      b2.total = b.total ∧
      b2.items.map Prod.snd = b.items.map Prod.snd ++ its.map (fun it => it.part) := by
  intro its
  induction its with
  | nil =>
      intro b b2 h
      have hv := Except.ok.inj h
      subst hv
      simp
  | cons it rest ih =>
      intro b b2 h
      unfold compileItems at h
      split at h
      · exact absurd h (by simp)
      · rename_i bmid heq
        obtain ⟨ht, hi⟩ := ih bmid b2 h
        obtain ⟨ht2, k, hk⟩ := compileStep_ok b it bmid heq
        refine ⟨by rw [ht, ht2], ?_⟩
        rw [hi, hk]
        simp

/-- A successfully validated item's `part` is exactly what the `part`
field check produced. -/
theorem validateItem_part (r : RawItem) (v : ValidatedItem)
    (h : validateItem r = .ok v) : checkPart r.part = .ok v.part := by
  unfold validateItem at h
  split at h
  · exact absurd h (by simp)
  · split at h
    · exact absurd h (by simp)
    · rename_i part heq
      split at h
      · exact absurd h (by simp)
      · split at h
        · exact absurd h (by simp)
        · split at h
          · exact absurd h (by simp)
          · split at h
            · exact absurd h (by simp)
            · have hv := Except.ok.inj h
              subst hv
              exact heq

/-- Item validation transports the remainder marker: a raw item with the
explicit `part: null` validates to an item with no part. -/
theorem validateItems_remainder :
    ∀ (l : List RawItem) (vl : List ValidatedItem),
      validateItems l = .ok vl →
      (∃ r ∈ l, r.part = some none) →
      ∃ v ∈ vl, v.part = none := by
  intro l
  induction l with
  | nil =>
      intro vl _ hex
      rcases hex with ⟨r, hr, _⟩
      exact absurd hr (List.not_mem_nil r)
  | cons r0 rest ih =>
      intro vl h hex
      unfold validateItems at h
      split at h
      · exact absurd h (by simp)
      · rename_i v0 heq0
        split at h
        · exact absurd h (by simp)
        · rename_i vrest heqrest
          have hv := Except.ok.inj h
          subst hv
          rcases hex with ⟨r, hr, hpart⟩
          rcases List.mem_cons.mp hr with hhead | htail
          · subst hhead
            have hcp := validateItem_part r v0 heq0
            rw [hpart] at hcp
            have hcp2 : Except.ok (ε := String) (none : Option Nat) = .ok v0.part := hcp
            exact ⟨v0, List.mem_cons_self _ _, (Except.ok.inj hcp2).symm⟩
          · obtain ⟨v, hvm, hvp⟩ := ih vrest heqrest ⟨r, htail, hpart⟩
            exact ⟨v, List.mem_cons_of_mem _ hvm, hvp⟩

/-- Inversion of a successful plan validation: the raw plan carried an
amount and a schedule, the items validated to the plan's item list, and
the validated amount is the raw amount's integer value. -/
theorem validatePlan_ok (p : RawPlan) (vp : ValidatedPlan)
    (h : validatePlan p = .ok vp) :
    ∃ q items, p.amount = some q ∧ p.schedule = some items ∧
      validateItems items = .ok vp.schedule ∧ vp.amount = q.num.toNat := by
  unfold validatePlan at h
  split at h
  · exact absurd h (by simp)
  · rename_i n hname
    split at h
    · exact absurd h (by simp)
    · split at h
      · exact absurd h (by simp)
      · rename_i q hamt
        split at h
        · split at h
          · exact absurd h (by simp)
          · rename_i items hsch
            split at h
            · exact absurd h (by simp)
            · split at h
              · exact absurd h (by simp)
              · rename_i vs heq
                have hv := Except.ok.inj h
                subst hv
                exact ⟨q, items, hamt, hsch, heq, rfl⟩
        · exact absurd h (by simp)

/-- C1 counterexample: a valid, accepted plan — amount 10, two `onetime`
items with explicit parts 1 and 2 and no remainder item — compiles to
events releasing `floor(10*1/3) = 3` and `floor(10*2/3) = 6` tokens: the
events sum to 9, one token short of the plan's amount, so the zero-loss
claim fails for plans whose explicit shares do not divide evenly and
which have no remainder item. -/
theorem C1_counterexample :
    parseVestingSchedule
      ⟨some "v", some 10, some
        [⟨some "onetime", some (some 1), none, some 0, none, none⟩,
         ⟨some "onetime", some (some 2), none, some 5000, none, none⟩]⟩ =
      .ok ⟨10, 2, [⟨.lump 0, 3⟩, ⟨.lump 5, 6⟩]⟩ ∧
    sumTokens [⟨.lump 0, 3⟩, ⟨.lump 5, 6⟩] = 9 ∧ (9 : Nat) ≠ 10 := by
  refine ⟨by decide, by decide, by decide⟩

/-- C1 amended: for every plan accepted by the compiler that contains a
remainder item (an item with the explicit `part: null`), the event token
amounts sum exactly to the plan's amount: the remainder item absorbs the
total minus the explicit floor allocations, which never exceed the
total. (Builder modelled from the spec; without a remainder item the
floor allocations may fall short of the total, as the counterexample
shows, though they never exceed it.) -/
theorem C1_zero_loss_with_remainder (p : RawPlan) (vs : VestingSchedule)
    (hok : parseVestingSchedule p = .ok vs)
    (hrem : ∃ items, p.schedule = some items ∧ ∃ r ∈ items, r.part = some none) :
    ∃ q, p.amount = some q ∧
      vs.token_count = q.num.toNat ∧ sumTokens vs.vestings = q.num.toNat := by
  unfold parseVestingSchedule at hok
  split at hok
  · exact absurd hok (by simp)
  · rename_i vp hvp
    split at hok
    · exact absurd hok (by simp)
    · rename_i b hb
      split at hok
      · exact absurd hok (by simp)
      · rename_i vs2 hbuild
        have hv := CompileOutcome.ok.inj hok
        subst hv
        obtain ⟨q, items, hamt, hsch, hvi, hqa⟩ := validatePlan_ok p vp hvp
        obtain ⟨ht, hparts⟩ :=
          compileItems_ok vp.schedule (Builder.with_tokens vp.amount) b hb
        obtain ⟨htc, hsum, hcle⟩ := build_ok b vs2 hbuild
        obtain ⟨items2, hsch2, hex⟩ := hrem
        rw [hsch] at hsch2
        have hit := Option.some.inj hsch2
        subst hit
        obtain ⟨v, hvm, hvp0⟩ := validateItems_remainder items vp.schedule hvi hex
        have hparts2 : b.items.map Prod.snd = vp.schedule.map (fun it => it.part) := by
          rw [hparts]
          simp [Builder.with_tokens]
        have h1le : 1 ≤ (b.items.map Prod.snd).countP (fun op => op.isNone) := by
          rw [hparts2]
          apply List.countP_pos_iff.mpr
          exact ⟨v.part, List.mem_map_of_mem _ hvm, by simp [hvp0]⟩
        have hone : (b.items.map Prod.snd).countP (fun op => op.isNone) = 1 :=
          Nat.le_antisymm hcle h1le
        have hbt : b.total = q.num.toNat := by
          rw [ht]
          exact hqa
        refine ⟨q, hamt, ?_, ?_⟩
        · rw [htc, hbt]
        · rw [hsum, allocationsOf_sum b.total (b.items.map Prod.snd) hone, hbt]

/-- C1 witness: the amended zero-loss statement at a concrete plan —
amount 10, explicit parts 1 and 2 plus a remainder item — whose events
release 3, 6 and 1 tokens, summing to exactly 10. -/
theorem C1_zero_loss_with_remainder_witness :
    ∃ q, (RawPlan.mk (some "w") (some 10) (some
        [⟨some "onetime", some (some 1), none, some 0, none, none⟩,
         ⟨some "onetime", some (some 2), none, some 5000, none, none⟩,
         ⟨some "onetime", some none, none, some 9000, none, none⟩])).amount = some q ∧
      (VestingSchedule.mk 10 3 [⟨.lump 0, 3⟩, ⟨.lump 5, 6⟩, ⟨.lump 9, 1⟩]).token_count =
        q.num.toNat ∧
      sumTokens (VestingSchedule.mk 10 3
        [⟨.lump 0, 3⟩, ⟨.lump 5, 6⟩, ⟨.lump 9, 1⟩]).vestings = q.num.toNat :=
  C1_zero_loss_with_remainder _ _ (by decide)
    ⟨_, rfl, ⟨⟨some "onetime", some none, none, some 9000, none, none⟩, by decide, rfl⟩⟩

/-- When every `addn` argument passes the assertion, the fold returns
the plain sum. -/
theorem bnAddAll_ok :
    ∀ (l : List Nat) (acc n : Nat), bnAddAll acc l = .ok n → n = acc + l.sum := by
  intro l
  induction l with
  | nil =>
      intro acc n h
      have hv := Except.ok.inj h
      simp [hv]
  | cons a rest ih =>
      intro acc n h
      unfold bnAddAll at h
      split at h
      · have := ih (acc + a) n h
        simp only [List.sum_cons]
        omega
      · exact absurd h (by simp)

/-- One group's `addn` argument list sums to that group's contribution
to the total. -/
theorem toList_contrib_sum (g : Option (List Char)) (mult : Nat) :
    (g.toList.map (fun t => digitsToNat t.dropLast * mult)).sum = unitValue g mult := by
  cases g <;> simp [unitValue]

/-- The `addn` arguments of a match sum to the match's total duration. -/
theorem contributionsOf_sum (m : DurationMatch) :
    (contributionsOf m).sum = durationOfMatch m := by
  unfold contributionsOf durationOfMatch
  simp only [List.sum_append, toList_contrib_sum]

/-- C9 counterexample: the claim says `parse_duration` never raises,
but on `"P1Y"` the loop passes 946080000 to bn.js's `addn`, whose
`iaddn` asserts its argument is below `0x4000000` (67108864) and throws
`Error("Assertion failed")` — the program raises instead of returning a
duration. -/
theorem C9_counterexample :
    parse_duration_run "P1Y" = .error "Assertion failed" ∧
    (67108864 : Nat) ≤ 946080000 := by
  refine ⟨by decide, by decide⟩

/-- C9 amended: `parse_duration` returns without raising — with a
non-negative duration — on every string in which the regex finds no
match (it returns 0 with no `addn` call at all): in particular on every
string containing no `P`, and on time-only strings such as `"PT30M"`.
On matched strings it returns the computed duration provided every
component product passed to `addn` stays below 2^26; a component of
2^26 seconds or more (such as any year component, worth 946080000
seconds each) makes bn.js's `addn` assertion raise, so the claim's
universal never-raises part fails. -/
theorem C9_total_on_no_match_amended :
    (∀ s : String, findDurationMatch s.data = none → parse_duration_run s = .ok 0) ∧
    (∀ s : String, (∀ c ∈ s.data, c ≠ 'P') → parse_duration_run s = .ok 0) ∧
    (∀ (s : String) (n : Nat), parse_duration_run s = .ok n → n = parse_duration s) ∧
    parse_duration_run "PT30M" = .ok 0 ∧
    parse_duration_run "T1H" = .ok 0 ∧
    parse_duration_run "P1D" = .ok 86400 := by
  refine ⟨?_, ?_, ?_, by decide, by decide, by decide⟩
  · intro s h
    unfold parse_duration_run
    rw [h]
  · intro s h
    unfold parse_duration_run
    rw [findDurationMatch_no_p s.data h]
  · intro s n h
    unfold parse_duration_run at h
    unfold parse_duration
    cases hm : findDurationMatch s.data with
    | none =>
        rw [hm] at h
        exact (Except.ok.inj h).symm
    | some m =>
        rw [hm] at h
        have hsum := bnAddAll_ok (contributionsOf m) 0 n h
        rw [contributionsOf_sum] at hsum
        show n = durationOfMatch m
        omega

/-- C9 witness: the no-match conjunct applied at the concrete string
`"zzz"`. -/
theorem C9_total_on_no_match_amended_witness : parse_duration_run "zzz" = .ok 0 :=
  C9_total_on_no_match_amended.1 "zzz" (by decide)
